import Mathlib

set_option autoImplicit false

/-!
Shallow embedding of the run-lifecycle core of the `wiselead-ai/openai` Go
client: the retrying HTTP transport (`httpclient.DoWithRetry` in
`src/httpclient/httpclient.go`), the run poller (`WaitForRun`, present in two
copies: `src/threads.go` and `src/unnamed/part_005`, which differ on the
`requires_action` status), the stream consumer (`StreamThread` in
`src/unnamed/part_005`) and the vector-store waiter
(`WaitForVectorStoreCompletion` in `src/vectorstore.go`).

Network effects are modelled by oracles: a function giving the outcome of the
i-th HTTP attempt or fetch, and a function giving which arm of a cancellable
`select` wait fires.  Loops are run on explicit fuel; a trace records the
returned value together with how many requests were issued and which sleep
delays were performed, so that claims about polling counts and backoff
schedules can be stated.
-/

deriving instance DecidableEq for Except

namespace Openai

/-! Run status constants, from `src/models.go`. -/

def RunStatusQueued : String := "queued"

def RunStatusInProgress : String := "in_progress"

def RunStatusCompleted : String := "completed"

def RunStatusFailed : String := "failed"

def RunStatusCancelling : String := "cancelling"

def RunStatusCancelled : String := "cancelled"

def RunStatusExpired : String := "expired"

def RunStatusRequiresAction : String := "requires_action"

def RunStatusPending : String := "pending"

/-! Transport: `DoWithRetry` from `src/httpclient/httpclient.go`. -/

/-- An HTTP response as far as `DoWithRetry` inspects it.  The status code is
carried only to show that `DoWithRetry` never branches on it: a response with
any status (including 4xx/5xx) is returned to the caller unchanged. -/
structure Response where
  statusCode : Nat
  body : String
deriving DecidableEq

/-- Outcome of one `client.Do(req)` call: a response, or a transport-level
error (connection refused, timeout, DNS, ...). -/
inductive AttemptResult where
  | ok (resp : Response)
  | fail (err : String)
deriving DecidableEq

/-- Which arm of the `select` between `req.Context().Done()` and
`time.After(delay)` fires during the backoff wait after a failed attempt. -/
inductive WaitOutcome where
  | ctxDone (ctxErr : String)
  | timerFired
deriving DecidableEq

/-- Errors `DoWithRetry` itself can return: the cancellation error
(`request cancelled or timed out: %w` wrapping the context error) or the
exhaustion error (`failed after %d retries: %w` wrapping the last
transport error, `none` modelling a nil wrapped error). -/
inductive RetryError where
  | cancelled (ctxErr : String)
  | exhausted (retries : Nat) (lastErr : Option String)
deriving DecidableEq

/-- Constant `maxRetries = 5` from `src/httpclient/httpclient.go`. -/
def maxRetries : Nat := 5

/-- Constant `baseRetryDelay = 2 * time.Second`, in seconds. -/
def baseRetryDelaySec : Nat := 2

/-- Constant `maxRetryDelay = 30 * time.Second`, in seconds. -/
def maxRetryDelaySec : Nat := 30

/-- Backoff delay computed for a failed attempt:
`delay := baseRetryDelay * 2^attempt; if delay > maxRetryDelay { delay = maxRetryDelay }`.
The `float64`/`math.Pow` arithmetic of the source is exact at the attempt
indices 0..4 that can occur, so `Nat` arithmetic is faithful. -/
def retryDelay (attempt : Nat) : Nat :=
  min (baseRetryDelaySec * 2 ^ attempt) maxRetryDelaySec

/-- Result of a `DoWithRetry` call together with its observable behaviour:
how many `client.Do` attempts were issued and which backoff waits were
completed (in seconds, in order). -/
structure RetryTrace where
  result : Except RetryError Response
  attemptsMade : Nat
  waits : List Nat
deriving DecidableEq

/-- Body of the `for attempt := 0; attempt < maxRetries; attempt++` loop of
`DoWithRetry`.  `fuel` counts the remaining iterations (`maxRetries - idx`),
`idx` is the current attempt index, `lastErr` the last transport error seen,
`ws` the backoff waits completed so far.  A successful attempt returns its
response at once; a failed attempt waits `retryDelay idx`, racing the request
context: if the context completes first the call returns the cancellation
error immediately. -/
def doWithRetryAux (attempts : Nat → AttemptResult) (waitAt : Nat → WaitOutcome) :
    Nat → Nat → Option String → List Nat → RetryTrace
  | 0, idx, lastErr, ws => ⟨.error (.exhausted maxRetries lastErr), idx, ws⟩
  | fuel + 1, idx, _lastErr, ws =>
    match attempts idx with
    | .ok resp => ⟨.ok resp, idx + 1, ws⟩
    | .fail e =>
      match waitAt idx with
      | .ctxDone ctxErr => ⟨.error (.cancelled ctxErr), idx + 1, ws⟩
      | .timerFired =>
        doWithRetryAux attempts waitAt fuel (idx + 1) (some e) (ws ++ [retryDelay idx])

/-- `DoWithRetry(client, req)`: run the retry loop from attempt 0 with no
last error recorded. -/
def DoWithRetry (attempts : Nat → AttemptResult) (waitAt : Nat → WaitOutcome) : RetryTrace :=
  doWithRetryAux attempts waitAt maxRetries 0 none []

/-- The list of backoff delays for `k` consecutive failed attempts starting
at attempt index `idx`. -/
def retryDelaysFrom (idx : Nat) : Nat → List Nat
  | 0 => []
  | k + 1 => retryDelay idx :: retryDelaysFrom (idx + 1) k

/-! Run poller: `WaitForRun`.  The repository holds two copies that differ in
the continue branch: `src/threads.go` continues only on `queued` and
`in_progress`, while `src/unnamed/part_005` also continues on
`requires_action` (as `threads_test.go` requires). -/

/-- Server-provided last error of a failed run (`RunError` in
`src/models.go`). -/
structure RunError where
  code : String
  message : String
deriving DecidableEq

/-- Outcome of one `GetRun` call as `WaitForRun` inspects it: either the
decorated fetch error, or a run snapshot reduced to the two fields read by
the poller (`Status`, `LastError`). -/
inductive FetchRun where
  | err (e : String)
  | run (status : String) (lastError : Option RunError)
deriving DecidableEq

/-- Return value of `WaitForRun`: `success` is the nil-error return; every
other constructor is one of its distinct non-nil error returns. -/
inductive WaitRunResult where
  | ctxErr
  | fetchFailed (e : String)
  | success
  | runFailed (code : String) (message : String)
  | runFailedNoDetails
  | endedWith (status : String)
  | unknownStatus (status : String)
deriving DecidableEq

/-- Observable behaviour of a `WaitForRun` call: the returned value (`none`
when the fuel ran out with the loop still polling), the number of `GetRun`
fetches issued, and the sleeps performed (each entry is the slept duration in
seconds; the source always sleeps `time.Second`). -/
structure WaitRunTrace where
  result : Option WaitRunResult
  fetches : Nat
  sleepsSec : List Nat
deriving DecidableEq

/-- Loop body of `WaitForRun` as written in `src/threads.go`: at the top of
each iteration the caller context is checked; then the run is fetched and the
switch on `run.Status` runs, whose continue branch covers only
`RunStatusQueued` and `RunStatusInProgress` (sleep 1s, fetch again); any
status outside the switch, including `requires_action`, hits the default
branch and returns the `unknown run status` error. -/
def WaitForRunThreadsGoAux (fetch : Nat → FetchRun) (ctxDone : Nat → Bool) :
    Nat → Nat → List Nat → WaitRunTrace
  | 0, idx, sl => ⟨none, idx, sl⟩
  | fuel + 1, idx, sl =>
    if ctxDone idx then ⟨some .ctxErr, idx, sl⟩
    else
      match fetch idx with
      | .err e => ⟨some (.fetchFailed e), idx + 1, sl⟩
      | .run status lastError =>
        if status = RunStatusCompleted then ⟨some .success, idx + 1, sl⟩
        else if status = RunStatusFailed then
          match lastError with
          | some le => ⟨some (.runFailed le.code le.message), idx + 1, sl⟩
          | none => ⟨some .runFailedNoDetails, idx + 1, sl⟩
        else if status = RunStatusCancelled ∨ status = RunStatusExpired then
          ⟨some (.endedWith status), idx + 1, sl⟩
        else if status = RunStatusQueued ∨ status = RunStatusInProgress then
          WaitForRunThreadsGoAux fetch ctxDone fuel (idx + 1) (sl ++ [1])
        else ⟨some (.unknownStatus status), idx + 1, sl⟩

/-- `WaitForRun` of `src/threads.go`, started with no fetches and no sleeps
performed. -/
def WaitForRunThreadsGo (fetch : Nat → FetchRun) (ctxDone : Nat → Bool) (fuel : Nat) :
    WaitRunTrace :=
  WaitForRunThreadsGoAux fetch ctxDone fuel 0 []

/-- Loop body of `WaitForRun` as written in `src/unnamed/part_005`:
identical to the `src/threads.go` copy except that the continue branch is
`case RunStatusQueued, RunStatusInProgress, RunStatusRequiresAction`. -/
def WaitForRunPart005Aux (fetch : Nat → FetchRun) (ctxDone : Nat → Bool) :
    Nat → Nat → List Nat → WaitRunTrace
  | 0, idx, sl => ⟨none, idx, sl⟩
  | fuel + 1, idx, sl =>
    if ctxDone idx then ⟨some .ctxErr, idx, sl⟩
    else
      match fetch idx with
      | .err e => ⟨some (.fetchFailed e), idx + 1, sl⟩
      | .run status lastError =>
        if status = RunStatusCompleted then ⟨some .success, idx + 1, sl⟩
        else if status = RunStatusFailed then
          match lastError with
          | some le => ⟨some (.runFailed le.code le.message), idx + 1, sl⟩
          | none => ⟨some .runFailedNoDetails, idx + 1, sl⟩
        else if status = RunStatusCancelled ∨ status = RunStatusExpired then
          ⟨some (.endedWith status), idx + 1, sl⟩
        else if status = RunStatusQueued ∨ status = RunStatusInProgress ∨
            status = RunStatusRequiresAction then
          WaitForRunPart005Aux fetch ctxDone fuel (idx + 1) (sl ++ [1])
        else ⟨some (.unknownStatus status), idx + 1, sl⟩

/-- `WaitForRun` of `src/unnamed/part_005`, started with no fetches and no
sleeps performed. -/
def WaitForRunPart005 (fetch : Nat → FetchRun) (ctxDone : Nat → Bool) (fuel : Nat) :
    WaitRunTrace :=
  WaitForRunPart005Aux fetch ctxDone fuel 0 []

/-! Stream consumer: `StreamThread` from `src/unnamed/part_005`. -/

/-- One element of the `delta.content` array of a streamed
`thread.message.delta` event, reduced to the two fields the consumer reads
(`content[i].Type` and `content[i].Text.Value`). -/
structure DeltaContentPart where
  type : String
  textValue : String
deriving DecidableEq

/-- The anonymous struct `threadMessage` that each data payload is
unmarshalled into: the `object` field and the `delta.content` array. -/
structure ThreadMessageDelta where
  object : String
  deltaContent : List DeltaContentPart
deriving DecidableEq

/-- One line produced by `bufio.Scanner` over the response body, together
with an oracle for the external `encoding/json` library: `json` is the result
of `json.Unmarshal` applied to the line's payload (the line after the
`data: ` marker), `none` meaning the unmarshal fails. -/
structure StreamLine where
  raw : String
  json : Option ThreadMessageDelta
deriving DecidableEq

/-- The emission test and extraction applied to a successfully unmarshalled
payload: `threadMessage.Object == "thread.message.delta" &&
len(threadMessage.Delta.Content) > 0 && threadMessage.Delta.Content[0].Type == "text"`,
in which case `threadMessage.Delta.Content[0].Text.Value` is sent on the text
channel; any other shape is silently skipped. -/
def emitsText (tm : ThreadMessageDelta) : Option String :=
  match tm.deltaContent with
  | [] => none
  | c :: _ =>
    if tm.object = "thread.message.delta" ∧ c.type = "text" then some c.textValue
    else none

/-- The `for scanner.Scan()` loop of `StreamThread` over the body lines,
returning the texts sent on the text channel and the errors sent on the error
channel, each in channel order (the end of each list models the channel being
closed).  A line that is empty or lacks the `data: ` marker is skipped; the
payload `[DONE]` ends the stream successfully (without consulting
`scanner.Err()`); an unparsable or non-text-delta payload is skipped; after
the lines are exhausted a scanner read error `scanErr`, if any, is delivered
once on the error channel.  Go's `strings.HasPrefix(line, "data: ")` and
`strings.TrimPrefix(line, "data: ")` are rendered as `take 6` and `drop 6`. -/
def scanLines : List StreamLine → Option String → List String × List String
  | [], none => ([], [])
  | [], some e => ([], ["scanner error: " ++ e])
  | l :: rest, scanErr =>
    if l.raw = "" ∨ ¬l.raw.take 6 = "data: " then scanLines rest scanErr
    else if l.raw.drop 6 = "[DONE]" then ([], [])
    else
      match l.json with
      | none => scanLines rest scanErr
      | some tm =>
        match emitsText tm with
        | some v =>
          let r := scanLines rest scanErr
          (v :: r.1, r.2)
        | none => scanLines rest scanErr

/-- The goroutine body of `StreamThread`: the early-exit error paths
(`AddMessage`, `json.Marshal`, `http.NewRequestWithContext`, `client.Do`) are
modelled by one oracle each, in source order; when all succeed the scan loop
runs over the body lines.  The returned pair is (texts sent on the text
channel, errors sent on the error channel); both channels are closed when the
goroutine returns, so list order models delivery order and the list ends
model the closures. -/
def StreamThread (addMsgErr marshalErr newReqErr doErr : Option String)
    (lines : List StreamLine) (scanErr : Option String) : List String × List String :=
  match addMsgErr with
  | some e => ([], ["could not add message: " ++ e])
  | none =>
    match marshalErr with
    | some e => ([], ["could not marshal run request: " ++ e])
    | none =>
      match newReqErr with
      | some e => ([], ["could not create request: " ++ e])
      | none =>
        match doErr with
        | some e => ([], ["could not send request: " ++ e])
        | none => scanLines lines scanErr

/-! Vector store waiter: `WaitForVectorStoreCompletion` from
`src/vectorstore.go`.  Durations are modelled in nanoseconds, the unit of
Go's `time.Duration`. -/

/-- One second (`time.Second`) in nanoseconds. -/
def nsPerSecond : Nat := 1000000000

/-- Outcome of one poll iteration's request as the waiter inspects it: a
`DoWithRetry` error, a JSON decode error, or a decoded store snapshot reduced
to its `Status` field. -/
inductive VSFetch where
  | fetchErr (e : String)
  | decodeErr (e : String)
  | store (status : String)
deriving DecidableEq

/-- Return value of `WaitForVectorStoreCompletion`: `success` is the
nil-error return; the others are its distinct non-nil error returns.  Note
the type has no cancellation constructor: the function body never consults
the caller context, so no cancellation return exists in the source. -/
inductive VSResult where
  | fetchFailed (e : String)
  | decodeFailed (e : String)
  | success
  | creationFailed
  | timeoutReached
deriving DecidableEq

/-- Observable behaviour of a `WaitForVectorStoreCompletion` call: returned
value (`none` when the fuel ran out mid-loop), number of polls issued, and
the sleeps performed in nanoseconds, in order. -/
structure VSTrace where
  result : Option VSResult
  polls : Nat
  sleeps : List Nat
deriving DecidableEq

/-- The delay update performed before each sleep:
`if delay < maxDelay { delay *= 2 }`.  The comparison guards the doubling,
not the doubled value, so the updated delay may exceed `maxDelay`. -/
def vsNextDelay (maxDelay delay : Nat) : Nat :=
  if delay < maxDelay then delay * 2 else delay

/-- Loop body of `WaitForVectorStoreCompletion`: fetch the store (errors
abort), return nil on status `completed`, the failure error on `failed`;
otherwise check the wall-clock timeout (`elapsed idx` is the value of
`time.Since(startTime)` at iteration `idx`), then update the delay and sleep
it.  The caller context is not consulted anywhere, matching the source
(`http.NewRequest` without the context, no `ctx.Done()` check, plain
`time.Sleep`). -/
def waitForVectorStoreCompletionAux (fetched : Nat → VSFetch) (elapsed : Nat → Nat)
    (timeout maxDelay : Nat) : Nat → Nat → Nat → List Nat → VSTrace
  | 0, idx, _delay, sl => ⟨none, idx, sl⟩
  | fuel + 1, idx, delay, sl =>
    match fetched idx with
    | .fetchErr e => ⟨some (.fetchFailed e), idx + 1, sl⟩
    | .decodeErr e => ⟨some (.decodeFailed e), idx + 1, sl⟩
    | .store status =>
      if status = "completed" then ⟨some .success, idx + 1, sl⟩
      else if status = "failed" then ⟨some .creationFailed, idx + 1, sl⟩
      else if timeout < elapsed idx then ⟨some .timeoutReached, idx + 1, sl⟩
      else
        waitForVectorStoreCompletionAux fetched elapsed timeout maxDelay fuel (idx + 1)
          (vsNextDelay maxDelay delay) (sl ++ [vsNextDelay maxDelay delay])

set_option linter.unusedVariables false in
/-- `WaitForVectorStoreCompletion(ctx, id, timeout, maxDelay)`: the loop
starts with `delay := 1 * time.Second`.  The `ctxDone` argument mirrors the
`ctx` parameter of the source; like the source, the body never reads it. -/
def WaitForVectorStoreCompletion (ctxDone : Bool) (fetched : Nat → VSFetch)
    (elapsed : Nat → Nat) (timeout maxDelay fuel : Nat) : VSTrace :=
  waitForVectorStoreCompletionAux fetched elapsed timeout maxDelay fuel 0 nsPerSecond []

/-- A list of sleep delays reachable from a given current delay by iterating
the source's update `vsNextDelay`: the next slept delay is always the update
of the previous one (doubling while strictly below `maxDelay`, constant
afterwards). -/
inductive DelayChain (maxDelay : Nat) : Nat → List Nat → Prop where
  | nil : ∀ d, DelayChain maxDelay d []
  | cons : ∀ d l, DelayChain maxDelay (vsNextDelay maxDelay d) l →
      DelayChain maxDelay d (vsNextDelay maxDelay d :: l)

/-! Theorems about the transport (`DoWithRetry`). -/

/-- Running the retry loop over `k` consecutive attempts that fail at the
transport level, each followed by a backoff wait in which the timer fires,
advances the loop `k` iterations: the attempt index moves from `idx` to
`idx + k`, the last recorded error becomes the `k`-th failure (for `k > 0`),
and the completed waits grow by the corresponding backoff delays. -/
theorem doWithRetryAux_failSteps (attempts : Nat → AttemptResult) (waitAt : Nat → WaitOutcome)
    (errs : Nat → String) :
    ∀ (k : Nat), ∀ (m idx : Nat) (lastErr : Option String) (ws : List Nat),
      (∀ i, i < k → attempts (idx + i) = .fail (errs (idx + i))) →
      (∀ i, i < k → waitAt (idx + i) = .timerFired) →
      doWithRetryAux attempts waitAt (k + m) idx lastErr ws =
        doWithRetryAux attempts waitAt m (idx + k)
          (match k with
            | 0 => lastErr
            | _ + 1 => some (errs (idx + k - 1)))
          (ws ++ retryDelaysFrom idx k) := by
  intro k
  induction k with
  | zero =>
    intro m idx lastErr ws _ _
    simp [retryDelaysFrom]
  | succ k ih =>
    intro m idx lastErr ws hfail hwait
    have h0 : attempts idx = .fail (errs idx) := by
      have h := hfail 0 (Nat.succ_pos k)
      simpa using h
    have w0 : waitAt idx = .timerFired := by
      have h := hwait 0 (Nat.succ_pos k)
      simpa using h
    have hs : k + 1 + m = (k + m) + 1 := by omega
    rw [hs]
    simp only [doWithRetryAux, h0, w0]
    have hfail' : ∀ i, i < k → attempts (idx + 1 + i) = .fail (errs (idx + 1 + i)) := by
      intro i hi
      have h := hfail (i + 1) (by omega)
      have e : idx + (i + 1) = idx + 1 + i := by omega
      rw [e] at h
      exact h
    have hwait' : ∀ i, i < k → waitAt (idx + 1 + i) = .timerFired := by
      intro i hi
      have h := hwait (i + 1) (by omega)
      have e : idx + (i + 1) = idx + 1 + i := by omega
      rw [e] at h
      exact h
    rw [ih m (idx + 1) (some (errs idx)) (ws ++ [retryDelay idx]) hfail' hwait']
    have eidx : idx + 1 + k = idx + (k + 1) := by omega
    rw [eidx]
    have ews : ws ++ [retryDelay idx] ++ retryDelaysFrom (idx + 1) k =
        ws ++ retryDelaysFrom idx (k + 1) := by
      simp [retryDelaysFrom, List.append_assoc]
    rw [ews]
    cases k with
    | zero => rfl
    | succ j => rfl

/-- C4: for every `DoWithRetry` call in which fewer than 5 consecutive
attempts fail at the transport level and then an attempt returns a response,
`DoWithRetry` returns that response with a nil error and makes no further
attempts.  The response is arbitrary: in particular its HTTP status code may
be any value, including one `>= 400`, and it is still returned to the caller
exactly like a success and never retried. -/
theorem doWithRetry_returns_response (attempts : Nat → AttemptResult)
    (waitAt : Nat → WaitOutcome) (errs : Nat → String) (k : Nat) (resp : Response)
    (hk : k < maxRetries)
    (hfail : ∀ i, i < k → attempts i = .fail (errs i))
    (hwait : ∀ i, i < k → waitAt i = .timerFired)
    (hok : attempts k = .ok resp) :
    (DoWithRetry attempts waitAt).result = .ok resp ∧
    (DoWithRetry attempts waitAt).attemptsMade = k + 1 := by
  unfold DoWithRetry
  have hdecomp : maxRetries = k + ((maxRetries - k - 1) + 1) := by omega
  rw [hdecomp,
    doWithRetryAux_failSteps attempts waitAt errs k ((maxRetries - k - 1) + 1) 0 none []
      (fun i hi => by simpa using hfail i hi) (fun i hi => by simpa using hwait i hi)]
  have h0k : 0 + k = k := by omega
  rw [h0k]
  simp only [doWithRetryAux, hok]
  constructor <;> trivial

/-- C4 witness: two connection-level failures, then the server answers with an
HTTP 500 response; `DoWithRetry` returns that response with no error after
exactly 3 attempts. -/
theorem doWithRetry_returns_response_witness :
    (DoWithRetry
        (fun i => if i < 2 then .fail "connection refused"
          else .ok ⟨500, "Internal Server Error"⟩)
        (fun _ => .timerFired)).result = .ok ⟨500, "Internal Server Error"⟩ ∧
    (DoWithRetry
        (fun i => if i < 2 then .fail "connection refused"
          else .ok ⟨500, "Internal Server Error"⟩)
        (fun _ => .timerFired)).attemptsMade = 3 :=
  doWithRetry_returns_response
    (fun i => if i < 2 then .fail "connection refused"
      else .ok ⟨500, "Internal Server Error"⟩)
    (fun _ => .timerFired) (fun _ => "connection refused") 2
    ⟨500, "Internal Server Error"⟩ (by decide) (by decide) (fun _ _ => rfl) (by decide)

/-- C5: for every `DoWithRetry` call whose request context completes during
the backoff wait that follows a failed attempt, `DoWithRetry` returns the
cancellation error wrapping the context's error, and performs no further
attempts. -/
theorem doWithRetry_cancelled_during_wait (attempts : Nat → AttemptResult)
    (waitAt : Nat → WaitOutcome) (errs : Nat → String) (ctxErr : String) (j : Nat)
    (hj : j < maxRetries)
    (hfail : ∀ i, i ≤ j → attempts i = .fail (errs i))
    (hwait : ∀ i, i < j → waitAt i = .timerFired)
    (hc : waitAt j = .ctxDone ctxErr) :
    (DoWithRetry attempts waitAt).result = .error (.cancelled ctxErr) ∧
    (DoWithRetry attempts waitAt).attemptsMade = j + 1 := by
  unfold DoWithRetry
  have hdecomp : maxRetries = j + ((maxRetries - j - 1) + 1) := by omega
  rw [hdecomp,
    doWithRetryAux_failSteps attempts waitAt errs j ((maxRetries - j - 1) + 1) 0 none []
      (fun i hi => by simpa using hfail i (Nat.le_of_lt hi))
      (fun i hi => by simpa using hwait i hi)]
  have h0j : 0 + j = j := by omega
  rw [h0j]
  simp only [doWithRetryAux, hfail j (Nat.le_refl j), hc]
  constructor <;> trivial

/-- C5 witness: the first attempt fails and the request context is cancelled
during the first backoff wait; `DoWithRetry` returns the cancellation error
after that single attempt. -/
theorem doWithRetry_cancelled_during_wait_witness :
    (DoWithRetry (fun _ => .fail "connection refused")
        (fun _ => .ctxDone "context canceled")).result =
      .error (.cancelled "context canceled") ∧
    (DoWithRetry (fun _ => .fail "connection refused")
        (fun _ => .ctxDone "context canceled")).attemptsMade = 1 :=
  doWithRetry_cancelled_during_wait (fun _ => .fail "connection refused")
    (fun _ => .ctxDone "context canceled") (fun _ => "connection refused")
    "context canceled" 0 (by decide) (fun _ _ => rfl) (fun _ hi => absurd hi (by omega)) rfl

/-- C10: when all 5 attempts fail at the transport level and the context
never completes, `DoWithRetry` performs a backoff wait after every failed
attempt, including the fifth and final one — 5 completed waits, of 2, 4, 8,
16 and finally the capped 30 seconds — and then returns the exhaustion error
wrapping the last underlying transport error. -/
theorem doWithRetry_exhausted (attempts : Nat → AttemptResult)
    (waitAt : Nat → WaitOutcome) (errs : Nat → String)
    (hfail : ∀ i, i < maxRetries → attempts i = .fail (errs i))
    (hwait : ∀ i, i < maxRetries → waitAt i = .timerFired) :
    DoWithRetry attempts waitAt =
      ⟨.error (.exhausted maxRetries (some (errs 4))), maxRetries, [2, 4, 8, 16, 30]⟩ := by
  unfold DoWithRetry
  rw [show maxRetries = 5 + 0 from rfl,
    doWithRetryAux_failSteps attempts waitAt errs 5 0 0 none []
      (fun i hi => by simpa using hfail i hi) (fun i hi => by simpa using hwait i hi)]
  rfl

/-- C10 witness: every attempt fails with a connection error and every wait
timer fires; the trace shows 5 attempts, the waits 2, 4, 8, 16, 30 seconds
(one after each failure, the last one capped), and the exhaustion error
wrapping the final failure. -/
theorem doWithRetry_exhausted_witness :
    DoWithRetry (fun _ => .fail "connection refused") (fun _ => .timerFired) =
      ⟨.error (.exhausted 5 (some "connection refused")), 5, [2, 4, 8, 16, 30]⟩ :=
  doWithRetry_exhausted (fun _ => .fail "connection refused") (fun _ => .timerFired)
    (fun _ => "connection refused") (fun _ _ => rfl) (fun _ _ => rfl)

/-! Theorems about the run poller (`WaitForRun`). -/

/-- Running the `src/unnamed/part_005` poll loop over `n` consecutive
fetches whose statuses are all in the continue set
(`queued`, `in_progress`, `requires_action`), with the caller context never
done, advances the loop `n` iterations: each round sleeps the fixed 1 second
and fetches again. -/
theorem waitForRunPart005Aux_continueSteps (fetch : Nat → FetchRun) (stat : Nat → String)
    (le : Nat → Option RunError) :
    ∀ (n : Nat), ∀ (m idx : Nat) (sl : List Nat),
      (∀ i, i < n → fetch (idx + i) = .run (stat (idx + i)) (le (idx + i))) →
      (∀ i, i < n → stat (idx + i) = RunStatusQueued ∨ stat (idx + i) = RunStatusInProgress ∨
        stat (idx + i) = RunStatusRequiresAction) →
      WaitForRunPart005Aux fetch (fun _ => false) (n + m) idx sl =
        WaitForRunPart005Aux fetch (fun _ => false) m (idx + n) (sl ++ List.replicate n 1) := by
  intro n
  induction n with
  | zero =>
    intro m idx sl _ _
    simp
  | succ n ih =>
    intro m idx sl hfetch hcont
    have hf0 : fetch idx = .run (stat idx) (le idx) := by simpa using hfetch 0 (Nat.succ_pos n)
    have hc0 : stat idx = RunStatusQueued ∨ stat idx = RunStatusInProgress ∨
        stat idx = RunStatusRequiresAction := by simpa using hcont 0 (Nat.succ_pos n)
    have hne1 : ¬stat idx = RunStatusCompleted := by
      rcases hc0 with h | h | h <;> rw [h] <;>
        simp [RunStatusQueued, RunStatusInProgress, RunStatusRequiresAction, RunStatusCompleted]
    have hne2 : ¬stat idx = RunStatusFailed := by
      rcases hc0 with h | h | h <;> rw [h] <;>
        simp [RunStatusQueued, RunStatusInProgress, RunStatusRequiresAction, RunStatusFailed]
    have hne3 : ¬(stat idx = RunStatusCancelled ∨ stat idx = RunStatusExpired) := by
      rcases hc0 with h | h | h <;> rw [h] <;>
        simp [RunStatusQueued, RunStatusInProgress, RunStatusRequiresAction,
          RunStatusCancelled, RunStatusExpired]
    have hs : n + 1 + m = (n + m) + 1 := by omega
    rw [hs]
    simp only [WaitForRunPart005Aux, hf0, Bool.false_eq_true, if_false, hne1, hne2, hne3,
      if_neg, hc0, if_pos, if_true]
    have hfetch' : ∀ i, i < n → fetch (idx + 1 + i) = .run (stat (idx + 1 + i)) (le (idx + 1 + i)) := by
      intro i hi
      have h := hfetch (i + 1) (by omega)
      have e : idx + (i + 1) = idx + 1 + i := by omega
      rw [e] at h
      exact h
    have hcont' : ∀ i, i < n → stat (idx + 1 + i) = RunStatusQueued ∨
        stat (idx + 1 + i) = RunStatusInProgress ∨
        stat (idx + 1 + i) = RunStatusRequiresAction := by
      intro i hi
      have h := hcont (i + 1) (by omega)
      have e : idx + (i + 1) = idx + 1 + i := by omega
      rw [e] at h
      exact h
    rw [ih m (idx + 1) (sl ++ [1]) hfetch' hcont']
    have eidx : idx + 1 + n = idx + (n + 1) := by omega
    have esl : sl ++ [1] ++ List.replicate n 1 = sl ++ List.replicate (n + 1) 1 := by
      simp [List.replicate_succ, List.append_assoc]
    rw [eidx, esl]

/-- C1: the claim says `queued`, `in_progress` and `requires_action` are all
treated as non-terminal by `WaitForRun`.  The `src/threads.go` copy violates
this for `requires_action`: on the fetch sequence
`[requires_action, in_progress, completed]` (the `requires action then
completes` case of `threads_test.go`) it hits the default branch and returns
the `unknown run status: requires_action` error after exactly 1 fetch with no
sleep, while the `src/unnamed/part_005` copy — as the claim, the spec and the
test require — keeps polling and returns nil after all 3 fetches with a
1-second sleep after each continue state. -/
theorem waitForRunThreadsGo_requires_action_divergence :
    WaitForRunThreadsGo
        (fun i => if i = 0 then .run RunStatusRequiresAction none
          else if i = 1 then .run RunStatusInProgress none
          else .run RunStatusCompleted none)
        (fun _ => false) 5 =
      ⟨some (.unknownStatus RunStatusRequiresAction), 1, []⟩ ∧
    WaitForRunPart005
        (fun i => if i = 0 then .run RunStatusRequiresAction none
          else if i = 1 then .run RunStatusInProgress none
          else .run RunStatusCompleted none)
        (fun _ => false) 5 =
      ⟨some .success, 3, [1, 1]⟩ := by
  constructor <;> decide

/-- C2: for every fetch sequence observed by the `src/unnamed/part_005`
`WaitForRun` consisting of continue states followed by a terminal state, the
poller keeps polling until the terminal state is observed (`n + 1` fetches,
one 1-second sleep after each continue state), and then: ends in `completed`
— returns nil; ends in `failed` — returns the non-nil error carrying the
server-provided last-error code and message when present; ends in
`cancelled` or `expired` — returns the non-nil `run ended with status`
error. -/
theorem waitForRun_terminal_classification (fetch : Nat → FetchRun) (stat : Nat → String)
    (le : Nat → Option RunError) (n fuel : Nat) (sn : String) (snle : Option RunError)
    (hfuel : n < fuel)
    (hfetch : ∀ i, i < n → fetch i = .run (stat i) (le i))
    (hcont : ∀ i, i < n → stat i = RunStatusQueued ∨ stat i = RunStatusInProgress ∨
      stat i = RunStatusRequiresAction)
    (hterm : fetch n = .run sn snle) :
    (sn = RunStatusCompleted →
      WaitForRunPart005 fetch (fun _ => false) fuel =
        ⟨some .success, n + 1, List.replicate n 1⟩) ∧
    (sn = RunStatusFailed →
      WaitForRunPart005 fetch (fun _ => false) fuel =
        ⟨some (match snle with
          | some e => .runFailed e.code e.message
          | none => .runFailedNoDetails), n + 1, List.replicate n 1⟩ ∧
      (WaitForRunPart005 fetch (fun _ => false) fuel).result ≠ some .success) ∧
    ((sn = RunStatusCancelled ∨ sn = RunStatusExpired) →
      WaitForRunPart005 fetch (fun _ => false) fuel =
        ⟨some (.endedWith sn), n + 1, List.replicate n 1⟩ ∧
      (WaitForRunPart005 fetch (fun _ => false) fuel).result ≠ some .success) := by
  obtain ⟨m, rfl⟩ : ∃ m, fuel = n + (m + 1) := ⟨fuel - n - 1, by omega⟩
  have hred : WaitForRunPart005 fetch (fun _ => false) (n + (m + 1)) =
      WaitForRunPart005Aux fetch (fun _ => false) (m + 1) n (List.replicate n 1) := by
    unfold WaitForRunPart005
    rw [waitForRunPart005Aux_continueSteps fetch stat le n (m + 1) 0 []
      (fun i hi => by simpa using hfetch i hi) (fun i hi => by simpa using hcont i hi)]
    simp
  refine ⟨?_, ?_, ?_⟩
  · intro h
    rw [h] at hterm
    rw [hred]
    simp [WaitForRunPart005Aux, hterm]
  · intro h
    rw [h] at hterm
    rw [hred]
    rcases snle with _ | e <;>
      simp [WaitForRunPart005Aux, hterm, RunStatusFailed, RunStatusCompleted]
  · intro h
    rcases h with h | h <;> subst h <;> rw [hred] <;>
      simp [WaitForRunPart005Aux, hterm, RunStatusCancelled, RunStatusExpired,
        RunStatusCompleted, RunStatusFailed]

/-- C2 witness: the sequence `[queued, completed]` returns nil after 2
fetches and one sleep, and the sequence `[queued, cancelled]` returns the
non-nil ended-with error after 2 fetches. -/
theorem waitForRun_terminal_classification_witness :
    WaitForRunPart005
        (fun i => if i = 0 then .run RunStatusQueued none else .run RunStatusCompleted none)
        (fun _ => false) 2 =
      ⟨some .success, 2, [1]⟩ ∧
    WaitForRunPart005
        (fun i => if i = 0 then .run RunStatusQueued none else .run RunStatusCancelled none)
        (fun _ => false) 2 =
      ⟨some (.endedWith RunStatusCancelled), 2, [1]⟩ := by
  constructor
  · exact (waitForRun_terminal_classification
      (fun i => if i = 0 then .run RunStatusQueued none else .run RunStatusCompleted none)
      (fun i => if i = 0 then RunStatusQueued else RunStatusCompleted)
      (fun _ => none) 1 2 RunStatusCompleted none (by decide) (by decide) (by decide)
      (by decide)).1 rfl
  · exact ((waitForRun_terminal_classification
      (fun i => if i = 0 then .run RunStatusQueued none else .run RunStatusCancelled none)
      (fun i => if i = 0 then RunStatusQueued else RunStatusCancelled)
      (fun _ => none) 1 2 RunStatusCancelled none (by decide) (by decide) (by decide)
      (by decide)).2.2 (Or.inl rfl)).1

/-- C3: a run snapshot whose status string is none of the seven documented
values makes the `src/unnamed/part_005` `WaitForRun` return the non-nil
`unknown run status` error on the first observation of that status, with no
further fetches and no further sleeps. -/
theorem waitForRun_unknown_status_immediate (fetch : Nat → FetchRun) (stat : Nat → String)
    (le : Nat → Option RunError) (n fuel : Nat) (s : String) (snle : Option RunError)
    (hfuel : n < fuel)
    (hfetch : ∀ i, i < n → fetch i = .run (stat i) (le i))
    (hcont : ∀ i, i < n → stat i = RunStatusQueued ∨ stat i = RunStatusInProgress ∨
      stat i = RunStatusRequiresAction)
    (hn : fetch n = .run s snle)
    (hs : ¬s = RunStatusQueued ∧ ¬s = RunStatusInProgress ∧ ¬s = RunStatusRequiresAction ∧
      ¬s = RunStatusCompleted ∧ ¬s = RunStatusFailed ∧ ¬s = RunStatusCancelled ∧
      ¬s = RunStatusExpired) :
    WaitForRunPart005 fetch (fun _ => false) fuel =
      ⟨some (.unknownStatus s), n + 1, List.replicate n 1⟩ := by
  obtain ⟨hs1, hs2, hs3, hs4, hs5, hs6, hs7⟩ := hs
  obtain ⟨m, rfl⟩ : ∃ m, fuel = n + (m + 1) := ⟨fuel - n - 1, by omega⟩
  have hred : WaitForRunPart005 fetch (fun _ => false) (n + (m + 1)) =
      WaitForRunPart005Aux fetch (fun _ => false) (m + 1) n (List.replicate n 1) := by
    unfold WaitForRunPart005
    rw [waitForRunPart005Aux_continueSteps fetch stat le n (m + 1) 0 []
      (fun i hi => by simpa using hfetch i hi) (fun i hi => by simpa using hcont i hi)]
    simp
  rw [hred]
  simp [WaitForRunPart005Aux, hn, hs1, hs2, hs3, hs4, hs5, hs6, hs7]

/-- C3 witness: the undocumented status `unknown_status` observed on the
first fetch makes `WaitForRun` return the unknown-status error after exactly
1 fetch and 0 sleeps. -/
theorem waitForRun_unknown_status_immediate_witness :
    WaitForRunPart005 (fun _ => .run "unknown_status" none) (fun _ => false) 1 =
      ⟨some (.unknownStatus "unknown_status"), 1, []⟩ :=
  waitForRun_unknown_status_immediate (fun _ => .run "unknown_status" none)
    (fun _ => "unknown_status") (fun _ => none) 0 1 "unknown_status" none (by decide)
    (fun _ hi => absurd hi (by omega)) (fun _ hi => absurd hi (by omega)) rfl (by decide)

/-! Theorems about the stream consumer (`StreamThread`). -/

/-- C6: for a stream body consisting of a data line carrying text delta `A`,
a data line carrying text delta `B`, and the sentinel line `data: [DONE]`,
`StreamThread` yields exactly `A` then `B` in that order on the text channel
and then closes it, and the error channel closes without any value being sent
(whatever the scanner's pending error state, since the sentinel exits before
`scanner.Err()` is consulted). -/
theorem streamThread_two_deltas_then_done (la lb ld : StreamLine)
    (tma tmb : ThreadMessageDelta) (A B : String) (scanErr : Option String)
    (ha : ¬la.raw = "" ∧ la.raw.take 6 = "data: " ∧ ¬la.raw.drop 6 = "[DONE]")
    (hja : la.json = some tma) (hea : emitsText tma = some A)
    (hb : ¬lb.raw = "" ∧ lb.raw.take 6 = "data: " ∧ ¬lb.raw.drop 6 = "[DONE]")
    (hjb : lb.json = some tmb) (heb : emitsText tmb = some B)
    (hd : ¬ld.raw = "" ∧ ld.raw.take 6 = "data: " ∧ ld.raw.drop 6 = "[DONE]") :
    StreamThread none none none none [la, lb, ld] scanErr = ([A, B], []) := by
  obtain ⟨ha1, ha2, ha3⟩ := ha
  obtain ⟨hb1, hb2, hb3⟩ := hb
  obtain ⟨hd1, hd2, hd3⟩ := hd
  simp [StreamThread, scanLines, ha1, ha2, ha3, hja, hea, hb1, hb2, hb3, hjb, heb,
    hd1, hd2, hd3]

/-- C6 witness: two text deltas followed by the sentinel yield exactly the
two fragments in order and no error. -/
theorem streamThread_two_deltas_then_done_witness :
    StreamThread none none none none
      [⟨"data: \x7bdeltaA\x7d", some ⟨"thread.message.delta", [⟨"text", "Hel"⟩]⟩⟩,
        ⟨"data: \x7bdeltaB\x7d", some ⟨"thread.message.delta", [⟨"text", "lo!"⟩]⟩⟩,
        ⟨"data: [DONE]", none⟩] none = (["Hel", "lo!"], []) :=
  streamThread_two_deltas_then_done
    ⟨"data: \x7bdeltaA\x7d", some ⟨"thread.message.delta", [⟨"text", "Hel"⟩]⟩⟩
    ⟨"data: \x7bdeltaB\x7d", some ⟨"thread.message.delta", [⟨"text", "lo!"⟩]⟩⟩
    ⟨"data: [DONE]", none⟩
    ⟨"thread.message.delta", [⟨"text", "Hel"⟩]⟩
    ⟨"thread.message.delta", [⟨"text", "lo!"⟩]⟩
    "Hel" "lo!" none (by decide) rfl (by decide) (by decide) rfl (by decide) (by decide)

/-- C7: a data line whose payload is malformed JSON, or whose JSON shape is
not a message delta with text content, appearing between two valid text-delta
data lines, is skipped by `StreamThread` without delivering any error or
terminating: both surrounding valid deltas are still delivered in order and
the stream then ends cleanly. -/
theorem streamThread_skips_bad_line (la lbad lb : StreamLine)
    (tma tmb : ThreadMessageDelta) (A B : String)
    (ha : ¬la.raw = "" ∧ la.raw.take 6 = "data: " ∧ ¬la.raw.drop 6 = "[DONE]")
    (hja : la.json = some tma) (hea : emitsText tma = some A)
    (hbad : ¬lbad.raw = "" ∧ lbad.raw.take 6 = "data: " ∧ ¬lbad.raw.drop 6 = "[DONE]")
    (hbadjson : lbad.json = none ∨ ∃ tm, lbad.json = some tm ∧ emitsText tm = none)
    (hb : ¬lb.raw = "" ∧ lb.raw.take 6 = "data: " ∧ ¬lb.raw.drop 6 = "[DONE]")
    (hjb : lb.json = some tmb) (heb : emitsText tmb = some B) :
    StreamThread none none none none [la, lbad, lb] none = ([A, B], []) := by
  obtain ⟨ha1, ha2, ha3⟩ := ha
  obtain ⟨hx1, hx2, hx3⟩ := hbad
  obtain ⟨hb1, hb2, hb3⟩ := hb
  rcases hbadjson with hbj | ⟨tm, hbj, hbe⟩
  · simp [StreamThread, scanLines, ha1, ha2, ha3, hja, hea, hx1, hx2, hx3, hbj,
      hb1, hb2, hb3, hjb, heb]
  · simp [StreamThread, scanLines, ha1, ha2, ha3, hja, hea, hx1, hx2, hx3, hbj,
      hb1, hb2, hb3, hjb, heb, hbe]

/-- C7 witness: a malformed JSON data line between two valid text deltas is
skipped and both deltas are still delivered, with no error. -/
theorem streamThread_skips_bad_line_witness :
    StreamThread none none none none
      [⟨"data: \x7bdeltaA\x7d", some ⟨"thread.message.delta", [⟨"text", "Hel"⟩]⟩⟩,
        ⟨"data: \x7bbroken", none⟩,
        ⟨"data: \x7bdeltaB\x7d", some ⟨"thread.message.delta", [⟨"text", "lo!"⟩]⟩⟩] none =
      (["Hel", "lo!"], []) :=
  streamThread_skips_bad_line
    ⟨"data: \x7bdeltaA\x7d", some ⟨"thread.message.delta", [⟨"text", "Hel"⟩]⟩⟩
    ⟨"data: \x7bbroken", none⟩
    ⟨"data: \x7bdeltaB\x7d", some ⟨"thread.message.delta", [⟨"text", "lo!"⟩]⟩⟩
    ⟨"thread.message.delta", [⟨"text", "Hel"⟩]⟩
    ⟨"thread.message.delta", [⟨"text", "lo!"⟩]⟩
    "Hel" "lo!" (by decide) rfl (by decide) (by decide) (Or.inl rfl) (by decide) rfl
    (by decide)

/-! Theorems about the vector store waiter (`WaitForVectorStoreCompletion`). -/

/-- The sleeps recorded by the vector-store poll loop extend the accumulator
by a chain driven by the source's delay update `vsNextDelay` from the current
delay. -/
theorem waitForVSAux_sleeps_chain (fetched : Nat → VSFetch) (elapsed : Nat → Nat)
    (timeout maxDelay : Nat) :
    ∀ (fuel idx delay : Nat) (sl : List Nat), ∃ l,
      (waitForVectorStoreCompletionAux fetched elapsed timeout maxDelay fuel idx
        delay sl).sleeps = sl ++ l ∧ DelayChain maxDelay delay l := by
  intro fuel
  induction fuel with
  | zero =>
    intro idx delay sl
    exact ⟨[], by simp [waitForVectorStoreCompletionAux], DelayChain.nil _⟩
  | succ fuel ih =>
    intro idx delay sl
    cases hf : fetched idx with
    | fetchErr e => exact ⟨[], by simp [waitForVectorStoreCompletionAux, hf], DelayChain.nil _⟩
    | decodeErr e => exact ⟨[], by simp [waitForVectorStoreCompletionAux, hf], DelayChain.nil _⟩
    | store status =>
      by_cases h1 : status = "completed"
      · exact ⟨[], by simp [waitForVectorStoreCompletionAux, hf, h1], DelayChain.nil _⟩
      · by_cases h2 : status = "failed"
        · exact ⟨[], by simp [waitForVectorStoreCompletionAux, hf, h1, h2], DelayChain.nil _⟩
        · by_cases h3 : timeout < elapsed idx
          · exact ⟨[], by simp [waitForVectorStoreCompletionAux, hf, h1, h2, h3],
              DelayChain.nil _⟩
          · obtain ⟨l, hsl, hchain⟩ := ih (idx + 1) (vsNextDelay maxDelay delay)
              (sl ++ [vsNextDelay maxDelay delay])
            refine ⟨vsNextDelay maxDelay delay :: l, ?_, DelayChain.cons delay l hchain⟩
            simp [waitForVectorStoreCompletionAux, hf, h1, h2, h3, hsl]

/-- Every sleep recorded by the vector-store poll loop stays strictly below
twice the configured maximum delay, provided the current delay does and the
accumulator does. -/
theorem waitForVSAux_sleeps_bound (fetched : Nat → VSFetch) (elapsed : Nat → Nat)
    (timeout maxDelay : Nat) :
    ∀ (fuel idx delay : Nat) (sl : List Nat), delay < 2 * maxDelay →
      (∀ d ∈ sl, d < 2 * maxDelay) →
      ∀ d ∈ (waitForVectorStoreCompletionAux fetched elapsed timeout maxDelay fuel idx
        delay sl).sleeps, d < 2 * maxDelay := by
  intro fuel
  induction fuel with
  | zero =>
    intro idx delay sl _ hsl
    simpa [waitForVectorStoreCompletionAux] using hsl
  | succ fuel ih =>
    intro idx delay sl hdelay hsl
    cases hf : fetched idx with
    | fetchErr e => simpa [waitForVectorStoreCompletionAux, hf] using hsl
    | decodeErr e => simpa [waitForVectorStoreCompletionAux, hf] using hsl
    | store status =>
      by_cases h1 : status = "completed"
      · simpa [waitForVectorStoreCompletionAux, hf, h1] using hsl
      · by_cases h2 : status = "failed"
        · simpa [waitForVectorStoreCompletionAux, hf, h1, h2] using hsl
        · by_cases h3 : timeout < elapsed idx
          · simpa [waitForVectorStoreCompletionAux, hf, h1, h2, h3] using hsl
          · have hnext : vsNextDelay maxDelay delay < 2 * maxDelay := by
              unfold vsNextDelay
              by_cases h : delay < maxDelay
              · simp only [h, if_true]
                omega
              · simp only [h, if_false]
                exact hdelay
            have hsl' : ∀ d ∈ sl ++ [vsNextDelay maxDelay delay], d < 2 * maxDelay := by
              intro d hd
              rcases List.mem_append.mp hd with hd | hd
              · exact hsl d hd
              · rcases List.mem_singleton.mp hd with rfl
                exact hnext
            have := ih (idx + 1) (vsNextDelay maxDelay delay)
              (sl ++ [vsNextDelay maxDelay delay]) hnext hsl'
            simpa [waitForVectorStoreCompletionAux, hf, h1, h2, h3] using this

/-- C8 counterexample: with `maxDelay = 3s` and two continue polls before
completion, the loop sleeps 2s then 4s — a slept delay strictly greater than
the caller-supplied maximum, refuting "never exceeds the caller-supplied
maximum delay on any iteration".  The doubling happens before the cap
comparison, so the capped comparison only stops future doublings. -/
theorem waitForVectorStore_sleep_exceeds_max :
    (WaitForVectorStoreCompletion false
        (fun i => if i < 2 then .store "in_progress" else .store "completed")
        (fun _ => 0) (1000 * nsPerSecond) (3 * nsPerSecond) 3).sleeps =
      [2 * nsPerSecond, 4 * nsPerSecond] ∧
    ∃ d ∈ (WaitForVectorStoreCompletion false
        (fun i => if i < 2 then .store "in_progress" else .store "completed")
        (fun _ => 0) (1000 * nsPerSecond) (3 * nsPerSecond) 3).sleeps,
      3 * nsPerSecond < d := by
  constructor
  · decide
  · decide

/-- C8 (amended): in every execution of `WaitForVectorStoreCompletion` the
delay starts at 1 second and each successive slept delay is the source's
update of the previous one — doubling while strictly below the
caller-supplied `maxDelay` and constant afterwards — so a slept delay can
exceed `maxDelay` (by strictly less than a factor of two) but, whenever
`maxDelay` is at least the initial 1 second, every slept delay stays
strictly below `2 * maxDelay`. -/
theorem waitForVectorStore_backoff_chain (ctxDone : Bool) (fetched : Nat → VSFetch)
    (elapsed : Nat → Nat) (timeout maxDelay fuel : Nat)
    (hmax : nsPerSecond ≤ maxDelay) :
    DelayChain maxDelay nsPerSecond
      (WaitForVectorStoreCompletion ctxDone fetched elapsed timeout maxDelay fuel).sleeps ∧
    ∀ d ∈ (WaitForVectorStoreCompletion ctxDone fetched elapsed timeout maxDelay
      fuel).sleeps, d < 2 * maxDelay := by
  have hpos : nsPerSecond < 2 * maxDelay := by
    have h : nsPerSecond = 1000000000 := rfl
    omega
  constructor
  · obtain ⟨l, hsl, hchain⟩ := waitForVSAux_sleeps_chain fetched elapsed timeout maxDelay
      fuel 0 nsPerSecond []
    unfold WaitForVectorStoreCompletion
    rw [hsl]
    simpa using hchain
  · intro d hd
    exact waitForVSAux_sleeps_bound fetched elapsed timeout maxDelay fuel 0 nsPerSecond []
      hpos (by simp) d hd

/-- C8 witness: on the concrete counterexample run (`maxDelay = 3s`), the
recorded sleeps form the update chain from 1s and are all below `2 * maxDelay`. -/
theorem waitForVectorStore_backoff_chain_witness :
    DelayChain (3 * nsPerSecond) nsPerSecond
      (WaitForVectorStoreCompletion false
        (fun i => if i < 2 then .store "in_progress" else .store "completed")
        (fun _ => 0) (1000 * nsPerSecond) (3 * nsPerSecond) 3).sleeps ∧
    ∀ d ∈ (WaitForVectorStoreCompletion false
        (fun i => if i < 2 then .store "in_progress" else .store "completed")
        (fun _ => 0) (1000 * nsPerSecond) (3 * nsPerSecond) 3).sleeps,
      d < 2 * (3 * nsPerSecond) :=
  waitForVectorStore_backoff_chain false
    (fun i => if i < 2 then .store "in_progress" else .store "completed")
    (fun _ => 0) (1000 * nsPerSecond) (3 * nsPerSecond) 3 (by decide)

/-- C9: the claim says cancelling the caller-supplied context stops the
vector-store poll loop with a cancellation error.  The source never consults
the context (`http.NewRequest` without the context, no `ctx.Done()` check,
uninterruptible `time.Sleep`), so the wait's behaviour is identical whether
or not the context is done, and on a run whose context is done from the
start the loop still issues all 3 polls and returns nil — there is no
cancellation outcome at all (`VSResult` has no such constructor, as the
source has no such return). -/
theorem waitForVectorStore_ignores_cancellation :
    (∀ (fetched : Nat → VSFetch) (elapsed : Nat → Nat) (timeout maxDelay fuel : Nat),
      WaitForVectorStoreCompletion true fetched elapsed timeout maxDelay fuel =
        WaitForVectorStoreCompletion false fetched elapsed timeout maxDelay fuel) ∧
    WaitForVectorStoreCompletion true
        (fun i => if i < 2 then .store "in_progress" else .store "completed")
        (fun _ => 0) (1000 * nsPerSecond) (60 * nsPerSecond) 3 =
      ⟨some .success, 3, [2 * nsPerSecond, 4 * nsPerSecond]⟩ :=
  ⟨fun _ _ _ _ _ => rfl, by decide⟩

end Openai
